import Mathlib

/-!
Shallow embedding of the Lightweight-Web-CAD-App snap engine and viewport
transform (src/utils/math.js, src/utils/transform.js, src/core/viewport.js,
src/core/rotation.js, src/rotation.js and the snapping engine in
src/unnamed/part_010).

Parts of the source that only add, subtract, multiply, divide and compare
numbers are embedded over ℚ and kept computable.  Parts whose source calls
transcendental functions (Math.cos, Math.sin, Math.atan2, Math.sqrt,
Math.pow) are embedded over ℝ.
-/

/-- A 2D point `{x, y}` with rational coordinates. -/
structure PointQ where
  x : ℚ
  y : ℚ
deriving DecidableEq, Repr

/-- Selection box `{x1, y1, x2, y2}` from src/utils/math.js (coordinates may
be unordered). -/
structure Box where
  x1 : ℚ
  y1 : ℚ
  x2 : ℚ
  y2 : ℚ
deriving DecidableEq, Repr

/-- The point `a + t * (b - a)` of the parametric segment from `a` to `b`. -/
def segPoint (a b : PointQ) (t : ℚ) : PointQ :=
  ⟨a.x + t * (b.x - a.x), a.y + t * (b.y - a.y)⟩

/-- Membership of a point in the normalized closed box. -/
def pointInBox (p : PointQ) (box : Box) : Prop :=
  min box.x1 box.x2 ≤ p.x ∧ p.x ≤ max box.x1 box.x2 ∧
  min box.y1 box.y2 ≤ p.y ∧ p.y ≤ max box.y1 box.y2

instance (p : PointQ) (box : Box) : Decidable (pointInBox p box) := by
  unfold pointInBox; infer_instance

/-- The x-clipping block of `segmentIntersectsBox` (src/utils/math.js):
operates on the pair `(t0, t1)`; `none` models the early `return false`.
In the `dx < 0` branch the source updates `t1` when `b.x > maxX` and `t0`
when `a.x > maxX`; in the `dx > 0` branch it updates `t1` when `b.x < minX`
and `t0` when `a.x < minX`; both translated verbatim. -/
def clipX (a b : PointQ) (minX maxX : ℚ) (t : ℚ × ℚ) : Option (ℚ × ℚ) :=
  let dx := b.x - a.x
  if dx < 0 then
    if a.x < minX then none
    else
      let t1 := if b.x > maxX then min t.2 ((maxX - a.x) / dx) else t.2
      let t0 := if a.x > maxX then max t.1 ((maxX - a.x) / dx) else t.1
      some (t0, t1)
  else if dx > 0 then
    if a.x > maxX then none
    else
      let t1 := if b.x < minX then min t.2 ((minX - a.x) / dx) else t.2
      let t0 := if a.x < minX then max t.1 ((minX - a.x) / dx) else t.1
      some (t0, t1)
  else
    if a.x < minX ∨ a.x > maxX then none else some t

/-- The y-clipping block of `segmentIntersectsBox`, translated verbatim. -/
def clipY (a b : PointQ) (minY maxY : ℚ) (t : ℚ × ℚ) : Option (ℚ × ℚ) :=
  let dy := b.y - a.y
  if dy < 0 then
    if a.y < minY then none
    else
      let t1 := if b.y > maxY then min t.2 ((maxY - a.y) / dy) else t.2
      let t0 := if a.y > maxY then max t.1 ((maxY - a.y) / dy) else t.1
      some (t0, t1)
  else if dy > 0 then
    if a.y > maxY then none
    else
      let t1 := if b.y < minY then min t.2 ((minY - a.y) / dy) else t.2
      let t0 := if a.y < minY then max t.1 ((minY - a.y) / dy) else t.1
      some (t0, t1)
  else
    if a.y < minY ∨ a.y > maxY then none else some t

/-- `segmentIntersectsBox(a, b, box)` from src/utils/math.js: quick reject,
quick accept, degenerate point test, then the parametric clipping of the
source with `t0 = 0`, `t1 = 1` threaded through `clipX` and `clipY`. -/
def segmentIntersectsBox (a b : PointQ) (box : Box) : Bool :=
  let minX := min box.x1 box.x2
  let maxX := max box.x1 box.x2
  let minY := min box.y1 box.y2
  let maxY := max box.y1 box.y2
  if (a.x < minX ∧ b.x < minX) ∨ (a.x > maxX ∧ b.x > maxX) then false
  else if (a.y < minY ∧ b.y < minY) ∨ (a.y > maxY ∧ b.y > maxY) then false
  else if a.x ≥ minX ∧ a.x ≤ maxX ∧ a.y ≥ minY ∧ a.y ≤ maxY ∧
          b.x ≥ minX ∧ b.x ≤ maxX ∧ b.y ≥ minY ∧ b.y ≤ maxY then true
  else
    let dx := b.x - a.x
    let dy := b.y - a.y
    if dx = 0 ∧ dy = 0 then
      decide (a.x ≥ minX ∧ a.x ≤ maxX ∧ a.y ≥ minY ∧ a.y ≤ maxY)
    else
      match clipX a b minX maxX (0, 1) with
      | none => false
      | some t =>
        match clipY a b minY maxY t with
        | none => false
        | some t2 => decide (t2.1 ≤ t2.2 ∧ t2.2 ≥ 0 ∧ t2.1 ≤ 1)

/-- `lineIntersection(a, b, c, d)` from the snapping engine
(src/unnamed/part_010): bounded segment-segment intersection via the
cross-product parametric solve; `none` models `null`. -/
def lineIntersection (a b c d : PointQ) : Option PointQ :=
  let r : PointQ := ⟨b.x - a.x, b.y - a.y⟩
  let s : PointQ := ⟨d.x - c.x, d.y - c.y⟩
  let rxs := r.x * s.y - r.y * s.x
  let qp : PointQ := ⟨c.x - a.x, c.y - a.y⟩
  if |rxs| < 1 / 10000000000 then none
  else
    let t := (qp.x * s.y - qp.y * s.x) / rxs
    let u := (qp.x * r.y - qp.y * r.x) / rxs
    if t < 0 ∨ t > 1 ∨ u < 0 ∨ u > 1 then none
    else some ⟨a.x + t * r.x, a.y + t * r.y⟩

/-- The cross product `rxs` used by `lineIntersection`. -/
def crossRS (a b c d : PointQ) : ℚ :=
  (b.x - a.x) * (d.y - c.y) - (b.y - a.y) * (d.x - c.x)

/-- The parameter `t` of `lineIntersection` (position on segment `a`-`b`). -/
def tParam (a b c d : PointQ) : ℚ :=
  ((c.x - a.x) * (d.y - c.y) - (c.y - a.y) * (d.x - c.x)) / crossRS a b c d

/-- The parameter `u` of `lineIntersection` (position on segment `c`-`d`). -/
def uParam (a b c d : PointQ) : ℚ :=
  ((c.x - a.x) * (b.y - a.y) - (c.y - a.y) * (b.x - a.x)) / crossRS a b c d

/-- Snap candidate kinds of the snapping engine; `other` models the
`default` branch of the source's `kindPriority` switch. -/
inductive SnapKind where
  | «end»
  | vertex
  | intersection
  | half
  | quadrant
  | centre
  | perpendicular
  | parallel
  | tangent
  | extension
  | grid
  | other
deriving DecidableEq, Repr

/-- `kindPriority(kind)` from src/unnamed/part_010. -/
def kindPriority : SnapKind → ℚ
  | .«end» => 0
  | .vertex => 0
  | .intersection => 1
  | .half => 2
  | .quadrant => 3
  | .centre => 4
  | .perpendicular => 5
  | .parallel => 6
  | .tangent => 7
  | .extension => 8
  | .grid => 9
  | .other => 10

/-- A candidate as scanned by `pickBestCandidate`.  `d` is the candidate's
screen-space distance `distPx(worldToScreen(canvas, c), pointerScreen)` to
the pointer, carried as data.  The source's square bounding-box pre-check
never rejects a candidate whose Euclidean screen distance satisfies
`d ≤ thresholdPx` (the box is the L-infinity ball of radius `thresholdPx`
and `|Δx|, |Δy| ≤ d`), so the scan filter reduces to `d ≤ thresholdPx`. -/
structure Candidate where
  x : ℚ
  y : ℚ
  kind : SnapKind
  d : ℚ
deriving DecidableEq, Repr

/-- `priorityBiasPx` constant of `pickBestCandidate`. -/
def priorityBiasPx : ℚ := 9 / 10

/-- The score `d + kindPriority(c.kind) * priorityBiasPx` of the scan loop. -/
def scoreOf (c : Candidate) : ℚ := c.d + kindPriority c.kind * priorityBiasPx

/-- The mutable scan state `best / bestScore / bestD` of the loop in
`pickBestCandidate`.  The source initializes `bestScore` and `bestD` to
`Infinity`, but `!best` short-circuits both comparisons whenever
`best === null`, so the initial numeric values are never read; the
embedding initializes them to `0`. -/
structure BestState where
  best : Option Candidate
  bestScore : ℚ
  bestD : ℚ
deriving DecidableEq, Repr

/-- One iteration of the candidate loop of `pickBestCandidate`
(src/unnamed/part_010): threshold filter, scoring, and the replacement
condition `!best or score < bestScore - 1e-6 or
(|score - bestScore| <= 0.2 and d < bestD - 1e-6)`. -/
def scanStep (thresholdPx : ℚ) (st : BestState) (c : Candidate) : BestState :=
  if c.d > thresholdPx then st
  else
    if st.best = none ∨ scoreOf c < st.bestScore - 1 / 1000000 ∨
       (|scoreOf c - st.bestScore| ≤ 1 / 5 ∧ c.d < st.bestD - 1 / 1000000) then
      ⟨some c, scoreOf c, c.d⟩
    else st

/-- Default `lastSnapHoldPx` from the `SnappingEngine` constructor. -/
def lastSnapHoldPx : ℚ := 6

/-- Default `angleSnapStepDeg` from the `SnappingEngine` constructor. -/
def angleSnapStepDeg : ℚ := 45

/-- `SnappingEngine.pickBestCandidate` (src/unnamed/part_010), abstracted
over the already-computed screen distances (see `Candidate.d`).  `lastSnap`
carries the previous snap with `d` equal to its current screen distance
`distPx(worldToScreen(canvas, lastSnap), pointerScreen)`; the hysteresis
block is translated verbatim. -/
def pickBestCandidate (thresholdPx holdPx : ℚ) (cands : List Candidate)
    (lastSnap : Option Candidate) : Option Candidate :=
  let st := cands.foldl (scanStep thresholdPx) ⟨none, 0, 0⟩
  match lastSnap with
  | none => st.best
  | some last =>
    if last.d ≤ thresholdPx + holdPx then
      if st.best = none then some last
      else if st.bestScore + 7 / 20 ≥ scoreOf last then some last
      else st.best
    else st.best

/-- `SnappingEngine.getSnapThresholdScreenPx` (src/unnamed/part_010):
`cfg` models `editor.CONFIG.SNAP_THRESHOLD`; `none` covers both a missing
and a non-finite configured value, which the source collapses to `12`
(`base = Number(SNAP_THRESHOLD ?? 12); px = isFinite(base) ? base : 12`). -/
def getSnapThresholdScreenPx (cfg : Option ℚ) : ℚ :=
  min 22 (max 6 (cfg.getD 12))

/-- A 2D point `{x, y}` with real coordinates, for the parts of the source
that use transcendental functions. -/
structure PointR where
  x : ℝ
  y : ℝ

noncomputable section

open Classical

/-- Euclidean distance (`Math.hypot`, the source's `distance` / `distPx`). -/
def distR (a b : PointR) : ℝ := Real.sqrt ((b.x - a.x) ^ 2 + (b.y - a.y) ^ 2)

/-- `worldToScreen(p, scale, offset)` from src/utils/transform.js. -/
def worldToScreen (p : PointR) (scale : ℝ) (offset : PointR) : PointR :=
  ⟨p.x * scale + offset.x, p.y * scale + offset.y⟩

/-- `screenToWorld(p, scale, offset)` from src/utils/transform.js. -/
def screenToWorld (p : PointR) (scale : ℝ) (offset : PointR) : PointR :=
  ⟨(p.x - offset.x) / scale, (p.y - offset.y) / scale⟩

/-- `rotatePoint(p, angleRad)` from src/core/viewport.js. -/
def rotatePoint (p : PointR) (angleRad : ℝ) : PointR :=
  ⟨p.x * Real.cos angleRad - p.y * Real.sin angleRad,
   p.x * Real.sin angleRad + p.y * Real.cos angleRad⟩

/-- The mutable `state` of `createViewport` (src/core/viewport.js):
scale, offset and rotationRad; the canvas element is kept outside. -/
structure ViewportState where
  scale : ℝ
  offset : PointR
  rotationRad : ℝ

/-- The state created by `createViewport` with default options
(`initialScale = 1/100`, `initialOffset = {x: 50, y: 50}`). -/
def initialViewport : ViewportState := ⟨1 / 100, ⟨50, 50⟩, 0⟩

/-- `toScreen(p)` from src/core/viewport.js: rotate by `-rotationRad`, then
uniform scale and translation. -/
def toScreen (v : ViewportState) (p : PointR) : PointR :=
  worldToScreen (rotatePoint p (-v.rotationRad)) v.scale v.offset

/-- `toWorld(p)` from src/core/viewport.js: untranslate and unscale, then
rotate by `rotationRad`. -/
def toWorld (v : ViewportState) (p : PointR) : PointR :=
  rotatePoint (screenToWorld p v.scale v.offset) v.rotationRad

/-- `setScale(s)` from src/core/viewport.js (the source stores `s`
verbatim, with no clamping). -/
def setScale (v : ViewportState) (s : ℝ) : ViewportState := { v with scale := s }

/-- `zoomAt(screenPoint, deltaY)` from src/core/viewport.js. -/
def zoomAt (v : ViewportState) (screenPoint : PointR) (deltaY : ℝ) : ViewportState :=
  let mouseWorld := toWorld v screenPoint
  let zoom : ℝ := if deltaY < 0 then 1.1 else 0.9
  let v1 := { v with scale := v.scale * zoom }
  let newScreen := toScreen v1 mouseWorld
  { v1 with offset := ⟨v1.offset.x + screenPoint.x - newScreen.x,
                       v1.offset.y + screenPoint.y - newScreen.y⟩ }

/-- World bounds argument of `fitToBounds`. -/
structure WBounds where
  minX : ℝ
  minY : ℝ
  maxX : ℝ
  maxY : ℝ

/-- `fitToBounds(bounds, padding)` from src/core/viewport.js; `w` and `h`
are the canvas dimensions.  Degenerate bounds leave the state unchanged. -/
def fitToBounds (v : ViewportState) (w h : ℝ) (bounds : WBounds) (padding : ℝ) :
    ViewportState :=
  let usableW := w - 2 * padding
  let usableH := h - 2 * padding
  let rangeX := bounds.maxX - bounds.minX
  let rangeY := bounds.maxY - bounds.minY
  if rangeX ≤ 0 ∨ rangeY ≤ 0 then v
  else
    let scale := min (usableW / rangeX) (usableH / rangeY)
    let cx := (bounds.minX + bounds.maxX) / 2
    let cy := (bounds.minY + bounds.maxY) / 2
    let screenC := worldToScreen (rotatePoint ⟨cx, cy⟩ (-v.rotationRad)) scale ⟨0, 0⟩
    { scale := scale, offset := ⟨w / 2 - screenC.x, h / 2 - screenC.y⟩,
      rotationRad := v.rotationRad }

/-- `clamp(n, a, b)` (identical in src/rotation.js, src/core/rotation.js and
src/unnamed/part_010): `Math.max(a, Math.min(b, n))`. -/
def clamp (n a b : ℝ) : ℝ := max a (min b n)

/-- `easeInOutCubic(t)` (identical in src/rotation.js, src/core/rotation.js
and src/unnamed/part_010). -/
def easeInOutCubic (t : ℝ) : ℝ :=
  if t < 0.5 then 4 * t * t * t else 1 - (-2 * t + 2) ^ 3 / 2

/-- The zoom value computed by `InputRouter.onMouseWheel` (src/rotation.js):
`newZoom = clamp(oldZoom * Math.pow(0.999, e.deltaY), 0.08, 40)`. -/
def onMouseWheelNewZoom (oldZoom deltaY : ℝ) : ℝ :=
  clamp (oldZoom * Real.rpow 0.999 deltaY) 0.08 40

/-- One frame of the `tick` closure of `rotateViewByAnimated`
(src/core/rotation.js) at interpolated angle `ang`: set the rotation, then
shift the current offset so the pivot maps back to `pivotScreen`. -/
def rotationTick (v : ViewportState) (pivotWorld pivotScreen : PointR) (ang : ℝ) :
    ViewportState :=
  let v1 := { v with rotationRad := ang }
  let newScreen := toScreen v1 pivotWorld
  { v1 with offset := ⟨v1.offset.x + pivotScreen.x - newScreen.x,
                       v1.offset.y + pivotScreen.y - newScreen.y⟩ }

/-- The whole animation of `rotateViewByAnimated` (src/core/rotation.js):
`pivotScreen` is captured once before the first frame; each animation frame
at timestamp `now` applies `tick` at the eased interpolated angle
`a0 + da * easeInOutCubic(clamp((now - t0) / durationMs, 0, 1))`.
`times` is the list of frame timestamps delivered by the host. -/
def rotateViewByAnimatedRun (v0 : ViewportState) (pivotWorld : PointR)
    (a0 da durationMs t0 : ℝ) (times : List ℝ) : ViewportState :=
  let pivotScreen := toScreen v0 pivotWorld
  times.foldl
    (fun v now => rotationTick v pivotWorld pivotScreen
      (a0 + da * easeInOutCubic (clamp ((now - t0) / durationMs) 0 1))) v0

/-- `angleRadBetween(a, b)` = `Math.atan2(b.y - a.y, b.x - a.x)`, embedded
as the complex argument of `(b.x - a.x) + (b.y - a.y) * I`. -/
def angleRadBetween (a b : PointR) : ℝ := Complex.arg ⟨b.x - a.x, b.y - a.y⟩

/-- Denotation of the `normaliseAngleRad` while-loops (src/unnamed/part_010
and src/rotation.js): the representative of `a` modulo `2π` lying in the
interval `(-π, π]`. -/
def normaliseAngleRad (a : ℝ) : ℝ :=
  a - 2 * Real.pi * ⌈a / (2 * Real.pi) - 1 / 2⌉

/-- `Math.round`: round half toward positive infinity. -/
def jsRound (x : ℝ) : ℤ := ⌊x + 1 / 2⌋

/-- `snapAngleRadians(angleRad, stepRad)` from src/unnamed/part_010:
`Math.round(angleRad / stepRad) * stepRad`. -/
def snapAngleRadians (angleRad stepRad : ℝ) : ℝ :=
  jsRound (angleRad / stepRad) * stepRad

/-- `SnappingEngine.applyAngleSnap` (src/unnamed/part_010), with the
`enabled` decision (`opts.enabled ?? this.shouldAngleSnap(shiftKey)`)
supplied as a boolean. -/
def applyAngleSnap (originWorld pointerWorld : PointR) (stepDeg : ℝ)
    (enabled : Bool) : PointR :=
  let stepRad := stepDeg * Real.pi / 180
  if !enabled then pointerWorld
  else
    let ang := normaliseAngleRad (angleRadBetween originWorld pointerWorld)
    let snappedAng := snapAngleRadians ang stepRad
    let len := Real.sqrt ((pointerWorld.x - originWorld.x) ^ 2 +
                          (pointerWorld.y - originWorld.y) ^ 2)
    ⟨originWorld.x + Real.cos snappedAng * len,
     originWorld.y + Real.sin snappedAng * len⟩

/-- `lineCircleIntersections(a, b, c, r)` from src/unnamed/part_010. -/
def lineCircleIntersections (a b c : PointR) (r : ℝ) : List PointR :=
  let dx := b.x - a.x
  let dy := b.y - a.y
  let fx := a.x - c.x
  let fy := a.y - c.y
  let A := dx * dx + dy * dy
  let B := 2 * (fx * dx + fy * dy)
  let C := fx * fx + fy * fy - r * r
  let disc := B * B - 4 * A * C
  if disc < 0 ∨ |A| < 1 / 1000000000000 then []
  else
    let sd := Real.sqrt disc
    let t1 := (-B - sd) / (2 * A)
    let t2 := (-B + sd) / (2 * A)
    let out := if 0 ≤ t1 ∧ t1 ≤ 1 then
      [(⟨a.x + t1 * dx, a.y + t1 * dy⟩ : PointR)] else []
    if 0 ≤ t2 ∧ t2 ≤ 1 ∧ |t2 - t1| > 1 / 100000000 then
      out ++ [⟨a.x + t2 * dx, a.y + t2 * dy⟩]
    else out

/-- `circleCircleIntersections(c0, r0, c1, r1)` from src/unnamed/part_010.
`isFinite(d)` always holds over ℝ and is dropped. -/
def circleCircleIntersections (c0 : PointR) (r0 : ℝ) (c1 : PointR) (r1 : ℝ) :
    List PointR :=
  let dx := c1.x - c0.x
  let dy := c1.y - c0.y
  let d := Real.sqrt (dx ^ 2 + dy ^ 2)
  if d < 1 / 10000000000 then []
  else if d > r0 + r1 then []
  else if d < |r0 - r1| then []
  else
    let a := (r0 * r0 - r1 * r1 + d * d) / (2 * d)
    let h2 := r0 * r0 - a * a
    if h2 < 0 then []
    else
      let h := Real.sqrt h2
      let xm := c0.x + a * dx / d
      let ym := c0.y + a * dy / d
      let rx := (-dy) * h / d
      let ry := dx * h / d
      let p1 : PointR := ⟨xm + rx, ym + ry⟩
      let p2 : PointR := ⟨xm - rx, ym - ry⟩
      if Real.sqrt ((p1.x - p2.x) ^ 2 + (p1.y - p2.y) ^ 2) < 1 / 100000000 then [p1]
      else [p1, p2]

/-- The quadratic coefficient `A = dx*dx + dy*dy` of
`lineCircleIntersections`. -/
def lcA (a b : PointR) : ℝ :=
  (b.x - a.x) * (b.x - a.x) + (b.y - a.y) * (b.y - a.y)

/-- The discriminant `B*B - 4*A*C` of `lineCircleIntersections`. -/
def lcDisc (a b c : PointR) (r : ℝ) : ℝ :=
  let dx := b.x - a.x
  let dy := b.y - a.y
  let fx := a.x - c.x
  let fy := a.y - c.y
  let A := dx * dx + dy * dy
  let B := 2 * (fx * dx + fy * dy)
  let C := fx * fx + fy * fy - r * r
  B * B - 4 * A * C

/-- The centre distance `d = Math.hypot(dx, dy)` of
`circleCircleIntersections`. -/
def ccDist (c0 c1 : PointR) : ℝ :=
  Real.sqrt ((c1.x - c0.x) ^ 2 + (c1.y - c0.y) ^ 2)

/-- Affine transform `[a, b, c, d, e, f]` (a fabric `calcTransformMatrix()`
result); `fabric.util.transformPoint` maps `(x, y)` to
`(a x + c y + e, b x + d y + f)`. -/
structure Affine where
  a : ℝ
  b : ℝ
  c : ℝ
  d : ℝ
  e : ℝ
  f : ℝ

/-- `fabric.util.transformPoint`. -/
def transformPoint (m : Affine) (p : PointR) : PointR :=
  ⟨m.a * p.x + m.c * p.y + m.e, m.b * p.x + m.d * p.y + m.f⟩

/-- The identity transform. -/
def idAffine : Affine := ⟨1, 0, 0, 1, 0, 0⟩

/-- A fabric line object as read by `addLineCandidates`: its endpoint fields
and the lazily assigned `__uid` (modelled as a number). -/
structure LineObj where
  x1 : ℝ
  y1 : ℝ
  x2 : ℝ
  y2 : ℝ
  uid : Option ℕ

/-- A fabric circle object as read by `addCircleCandidates`: centre
(`getCenterPoint()`), radius, scales and the lazily assigned `__uid`. -/
structure CircleObj where
  cx : ℝ
  cy : ℝ
  radius : ℝ
  scaleX : ℝ
  scaleY : ℝ
  uid : Option ℕ

/-- Candidate point pushed by `_pushUnique`. -/
structure SnapPt where
  x : ℝ
  y : ℝ
  kind : SnapKind
  angleRad : Option ℝ
  srcId : Option ℕ

/-- Directed segment registered by `addLineCandidates`. -/
structure SegR where
  a : PointR
  b : PointR
  angle : ℝ
  srcId : Option ℕ

/-- Circle descriptor registered by `addCircleCandidates`. -/
structure CircleDesc where
  c : PointR
  r : ℝ
  srcId : Option ℕ

/-- `SnappingEngine._pushUnique` (src/unnamed/part_010): the point is
discarded when another candidate of the same kind already lies within
`1e-4`; otherwise it is appended. -/
def pushUnique (ptsOut : List SnapPt) (p : PointR) (kind : SnapKind)
    (angleRad : Option ℝ) (srcId : Option ℕ) : List SnapPt :=
  if ∃ q ∈ ptsOut, q.kind = kind ∧
      Real.sqrt ((q.x - p.x) ^ 2 + (q.y - p.y) ^ 2) < 1 / 10000 then ptsOut
  else ptsOut ++ [⟨p.x, p.y, kind, angleRad, srcId⟩]

/-- `SnappingEngine.addLineCandidates` (src/unnamed/part_010).  The fabric
transform matrix is passed explicitly.  `fresh` models the random uid the
source creates in `lineObj.__uid = ...` when the object has none; that
assignment mutates the drawable, modelled here by returning the updated
object alongside the outputs. -/
def addLineCandidates (fresh : ℕ) (m : Affine) (lineObj : LineObj)
    (ptsOut : List SnapPt) (segsOut : List SegR) :
    LineObj × List SnapPt × List SegR :=
  let a := transformPoint m ⟨lineObj.x1, lineObj.y1⟩
  let b := transformPoint m ⟨lineObj.x2, lineObj.y2⟩
  let ang := normaliseAngleRad (angleRadBetween a b)
  let idObj : ℕ × LineObj :=
    match lineObj.uid with
    | some u => (u, lineObj)
    | none => (fresh, { lineObj with uid := some fresh })
  let pts1 := pushUnique ptsOut a .«end» (some ang) (some idObj.1)
  let pts2 := pushUnique pts1 b .«end» (some ang) (some idObj.1)
  let pts3 := pushUnique pts2 ⟨(a.x + b.x) / 2, (a.y + b.y) / 2⟩ .half
    (some ang) (some idObj.1)
  (idObj.2, pts3, segsOut ++ [⟨a, b, ang, some idObj.1⟩])

/-- `SnappingEngine.addCircleCandidates` (src/unnamed/part_010), with the
same treatment of `__uid` as `addLineCandidates`. -/
def addCircleCandidates (fresh : ℕ) (enableQuadrantSnap : Bool)
    (circleObj : CircleObj) (circlesOut : List CircleDesc)
    (ptsOut : List SnapPt) :
    CircleObj × List CircleDesc × List SnapPt :=
  let cWorld : PointR := ⟨circleObj.cx, circleObj.cy⟩
  let sx := |circleObj.scaleX|
  let sy := |circleObj.scaleY|
  let r := circleObj.radius * max sx sy
  let idObj : ℕ × CircleObj :=
    match circleObj.uid with
    | some u => (u, circleObj)
    | none => (fresh, { circleObj with uid := some fresh })
  let circles1 := circlesOut ++ [⟨cWorld, r, some idObj.1⟩]
  let pts1 := pushUnique ptsOut cWorld .centre none (some idObj.1)
  let pts2 :=
    if enableQuadrantSnap ∧ r > 1 / 1000000000 then
      [0, Real.pi / 2, Real.pi, 3 * Real.pi / 2].foldl
        (fun acc aAng => pushUnique acc
          ⟨cWorld.x + r * Real.cos aAng, cWorld.y + r * Real.sin aAng⟩
          .quadrant (some aAng) (some idObj.1)) pts1
    else pts1
  (idObj.2, circles1, pts2)

end

/-- Rotating by `-θ` and then by `θ` is the identity. -/
theorem rotatePoint_neg_rotatePoint (p : PointR) (θ : ℝ) :
    rotatePoint (rotatePoint p (-θ)) θ = p := by
  obtain ⟨x, y⟩ := p
  simp only [rotatePoint, Real.cos_neg, Real.sin_neg, PointR.mk.injEq]
  constructor
  · linear_combination x * Real.sin_sq_add_cos_sq θ
  · linear_combination y * Real.sin_sq_add_cos_sq θ

/-- Rotating by `θ` and then by `-θ` is the identity. -/
theorem rotatePoint_rotatePoint_neg (p : PointR) (θ : ℝ) :
    rotatePoint (rotatePoint p θ) (-θ) = p := by
  obtain ⟨x, y⟩ := p
  simp only [rotatePoint, Real.cos_neg, Real.sin_neg, PointR.mk.injEq]
  constructor
  · linear_combination x * Real.sin_sq_add_cos_sq θ
  · linear_combination y * Real.sin_sq_add_cos_sq θ

/-- `screenToWorld` undoes `worldToScreen` when the scale is nonzero. -/
theorem screenToWorld_worldToScreen (p : PointR) (scale : ℝ) (offset : PointR)
    (h : scale ≠ 0) : screenToWorld (worldToScreen p scale offset) scale offset = p := by
  obtain ⟨x, y⟩ := p
  simp only [worldToScreen, screenToWorld, PointR.mk.injEq]
  constructor <;> field_simp

/-- `worldToScreen` undoes `screenToWorld` when the scale is nonzero. -/
theorem worldToScreen_screenToWorld (p : PointR) (scale : ℝ) (offset : PointR)
    (h : scale ≠ 0) : worldToScreen (screenToWorld p scale offset) scale offset = p := by
  obtain ⟨x, y⟩ := p
  simp only [worldToScreen, screenToWorld, PointR.mk.injEq]
  constructor <;> field_simp

/-- Claim C1: for every world point `p` and every viewport state whose
`scale` is nonzero (any offset, any rotation), `toScreen` and `toWorld` are
pure mutual inverses: `toWorld (toScreen p) = p` and `toScreen (toWorld p) = p`
hold exactly in real arithmetic (hence up to floating-point error in the
source). -/
theorem C1_toScreen_toWorld_roundtrip (v : ViewportState) (p : PointR)
    (hs : v.scale ≠ 0) :
    toWorld v (toScreen v p) = p ∧ toScreen v (toWorld v p) = p := by
  constructor
  · rw [toScreen, toWorld, screenToWorld_worldToScreen _ _ _ hs,
      rotatePoint_neg_rotatePoint]
  · rw [toWorld, toScreen, rotatePoint_rotatePoint_neg,
      worldToScreen_screenToWorld _ _ _ hs]

/-- Witness for C1 at a concrete viewport (scale 1/2, offset (3,4),
rotation 0) and the point (1,2). -/
theorem C1_roundtrip_witness :
    (ViewportState.mk (1 / 2) ⟨3, 4⟩ 0).scale ≠ 0 ∧
      (toWorld ⟨1 / 2, ⟨3, 4⟩, 0⟩ (toScreen ⟨1 / 2, ⟨3, 4⟩, 0⟩ ⟨1, 2⟩) = ⟨1, 2⟩ ∧
       toScreen ⟨1 / 2, ⟨3, 4⟩, 0⟩ (toWorld ⟨1 / 2, ⟨3, 4⟩, 0⟩ ⟨1, 2⟩) = ⟨1, 2⟩) :=
  ⟨by norm_num,
   C1_toScreen_toWorld_roundtrip ⟨1 / 2, ⟨3, 4⟩, 0⟩ ⟨1, 2⟩ (by norm_num)⟩

/-- One `tick` frame maps the pivot exactly back to `pivotScreen` and leaves
the scale untouched, whatever the current state and interpolated angle. -/
theorem rotationTick_locks_pivot (v : ViewportState) (pivotWorld pivotScreen : PointR)
    (ang : ℝ) :
    toScreen (rotationTick v pivotWorld pivotScreen ang) pivotWorld = pivotScreen ∧
    (rotationTick v pivotWorld pivotScreen ang).scale = v.scale := by
  constructor
  · obtain ⟨s, ⟨ox, oy⟩, θ⟩ := v
    obtain ⟨wx, wy⟩ := pivotWorld
    obtain ⟨sx, sy⟩ := pivotScreen
    simp only [rotationTick, toScreen, worldToScreen, rotatePoint, PointR.mk.injEq]
    constructor <;> ring
  · rfl

/-- Claim C4: at every frame of the camera-rotation animation — for every
start state, delta angle, pivot, duration and any list of frame timestamps —
the translation re-solve keeps the world pivot at exactly the screen
position it occupied before the rotation started (difference 0 < 1 pixel),
and the zoom magnitude (`scale`) is held constant throughout. -/
theorem C4_rotation_pivot_locked (v0 : ViewportState) (pivotWorld : PointR)
    (a0 da durationMs t0 : ℝ) (times : List ℝ) :
    (rotateViewByAnimatedRun v0 pivotWorld a0 da durationMs t0 times).scale = v0.scale ∧
    toScreen (rotateViewByAnimatedRun v0 pivotWorld a0 da durationMs t0 times)
      pivotWorld = toScreen v0 pivotWorld := by
  have key : ∀ (ts : List ℝ) (v : ViewportState),
      v.scale = v0.scale → toScreen v pivotWorld = toScreen v0 pivotWorld →
      ((ts.foldl (fun v now => rotationTick v pivotWorld (toScreen v0 pivotWorld)
          (a0 + da * easeInOutCubic (clamp ((now - t0) / durationMs) 0 1))) v).scale
        = v0.scale ∧
       toScreen (ts.foldl (fun v now => rotationTick v pivotWorld (toScreen v0 pivotWorld)
          (a0 + da * easeInOutCubic (clamp ((now - t0) / durationMs) 0 1))) v)
          pivotWorld = toScreen v0 pivotWorld) := by
    intro ts
    induction ts with
    | nil => intro v h1 h2; exact ⟨h1, h2⟩
    | cons now rest ih =>
      intro v h1 h2
      simp only [List.foldl_cons]
      refine ih _ ?_ ?_
      · rw [(rotationTick_locks_pivot v pivotWorld (toScreen v0 pivotWorld) _).2, h1]
      · exact (rotationTick_locks_pivot v pivotWorld (toScreen v0 pivotWorld) _).1
  simpa only [rotateViewByAnimatedRun] using key times v0 rfl rfl

/-- Claim C9 counterexample: `setScale` stores its argument verbatim, so
applying it to the initial viewport with `-1` leaves `scale = -1`, which is
outside every positive clamped zoom range (and in particular outside the
wheel handler's `[0.08, 40]`). -/
theorem C9_setScale_unclamped_cex :
    (setScale initialViewport (-1)).scale = -1 ∧
    ¬ (0 < (setScale initialViewport (-1)).scale) := by
  refine ⟨rfl, ?_⟩
  simp only [setScale, initialViewport]
  norm_num

/-- Claim C9 amended: only the wheel handler's zoom step is clamped —
`onMouseWheelNewZoom` always lands in `[0.08, 40]` — while `setScale` stores
its argument verbatim and `zoomAt` multiplies the scale by `1.1` or `0.9`
with no clamping, so those operations do not keep `scale` inside any fixed
positive range. -/
theorem C9_only_wheel_zoom_clamped :
    (∀ oldZoom deltaY : ℝ,
      0.08 ≤ onMouseWheelNewZoom oldZoom deltaY ∧
      onMouseWheelNewZoom oldZoom deltaY ≤ 40) ∧
    (∀ (v : ViewportState) (s : ℝ), (setScale v s).scale = s) ∧
    (∀ (v : ViewportState) (p : PointR) (deltaY : ℝ),
      (zoomAt v p deltaY).scale = v.scale * (if deltaY < 0 then 1.1 else 0.9)) := by
  refine ⟨fun z dY => ⟨?_, ?_⟩, fun v s => rfl, fun v p dY => rfl⟩
  · simp only [onMouseWheelNewZoom, clamp]
    exact le_max_left _ _
  · simp only [onMouseWheelNewZoom, clamp]
    exact max_le (by norm_num) (min_le_left _ _)

/-- `scanStep` when the candidate is beyond the threshold: state unchanged. -/
theorem scanStep_far {thresholdPx : ℚ} (st : BestState) {c : Candidate}
    (h : c.d > thresholdPx) : scanStep thresholdPx st c = st := by
  unfold scanStep
  rw [if_pos h]

/-- `scanStep` when the candidate is within threshold and the replacement
condition fires. -/
theorem scanStep_take {thresholdPx : ℚ} {st : BestState} {c : Candidate}
    (h : ¬ c.d > thresholdPx)
    (hc : st.best = none ∨ scoreOf c < st.bestScore - 1 / 1000000 ∨
      (|scoreOf c - st.bestScore| ≤ 1 / 5 ∧ c.d < st.bestD - 1 / 1000000)) :
    scanStep thresholdPx st c = ⟨some c, scoreOf c, c.d⟩ := by
  unfold scanStep
  rw [if_neg h, if_pos hc]

/-- `scanStep` when the candidate is within threshold but loses to the
current best: state unchanged. -/
theorem scanStep_keep {thresholdPx : ℚ} {st : BestState} {c : Candidate}
    (h : ¬ c.d > thresholdPx)
    (hc : ¬ (st.best = none ∨ scoreOf c < st.bestScore - 1 / 1000000 ∨
      (|scoreOf c - st.bestScore| ≤ 1 / 5 ∧ c.d < st.bestD - 1 / 1000000))) :
    scanStep thresholdPx st c = st := by
  unfold scanStep
  rw [if_neg h, if_neg hc]

/-- Scan-loop invariant: whenever the state holds a best candidate, its
`bestScore` is that candidate's score, the candidate is within the
threshold, and it satisfies any property `Q` holding of all scanned
candidates (and of the incoming best). -/
theorem foldl_scanStep_sound (thresholdPx : ℚ) (Q : Candidate → Prop) :
    ∀ (l : List Candidate) (st : BestState),
      (∀ c ∈ l, Q c) →
      (∀ b, st.best = some b → scoreOf b = st.bestScore ∧ b.d ≤ thresholdPx ∧ Q b) →
      ∀ b, (l.foldl (scanStep thresholdPx) st).best = some b →
        scoreOf b = (l.foldl (scanStep thresholdPx) st).bestScore ∧
        b.d ≤ thresholdPx ∧ Q b := by
  intro l
  induction l with
  | nil => intro st _ h b hb; exact h b hb
  | cons c rest ih =>
    intro st hQ h b hb
    simp only [List.foldl_cons] at hb ⊢
    refine ih (scanStep thresholdPx st c)
      (fun x hx => hQ x (List.mem_cons_of_mem _ hx)) ?_ b hb
    intro b0 hb0
    by_cases hfar : c.d > thresholdPx
    · rw [scanStep_far st hfar] at hb0 ⊢
      exact h b0 hb0
    · by_cases hcond : st.best = none ∨ scoreOf c < st.bestScore - 1 / 1000000 ∨
        (|scoreOf c - st.bestScore| ≤ 1 / 5 ∧ c.d < st.bestD - 1 / 1000000)
      · rw [scanStep_take hfar hcond] at hb0 ⊢
        have h2 : some c = some b0 := hb0
        injection h2 with h2
        subst h2
        exact ⟨rfl, not_lt.mp hfar, hQ c (List.mem_cons_self c rest)⟩
      · rw [scanStep_keep hfar hcond] at hb0 ⊢
        exact h b0 hb0

/-- Claim C3: hysteresis.  If the previous snap is still within
`thresholdPx + holdPx` of the pointer in screen space, and no candidate
within the threshold beats its score by more than the `0.35` margin (in
particular, the minimum-score candidate does not), then
`pickBestCandidate` keeps returning the previous snap. -/
theorem C3_hysteresis_keeps_lastSnap (thresholdPx holdPx : ℚ)
    (cands : List Candidate) (last : Candidate)
    (hlast : last.d ≤ thresholdPx + holdPx)
    (hmargin : ∀ c ∈ cands, c.d ≤ thresholdPx → scoreOf last ≤ scoreOf c + 7 / 20) :
    pickBestCandidate thresholdPx holdPx cands (some last) = some last := by
  simp only [pickBestCandidate]
  rw [if_pos hlast]
  cases hst : (cands.foldl (scanStep thresholdPx) ⟨none, 0, 0⟩).best with
  | none => simp
  | some b =>
    have hb := foldl_scanStep_sound thresholdPx (fun c => c ∈ cands) cands
      ⟨none, 0, 0⟩ (fun c hc => hc)
      (by intro b0 hb0; exact absurd hb0 (by simp)) b hst
    rw [if_neg (by simp), if_pos (by rw [← hb.1]; linarith [hmargin b hb.2.2 hb.2.1])]

/-- Witness for C3: a single endpoint candidate at distance 5 does not beat
the previous endpoint snap at distance 5 by more than the margin, so the
previous snap is kept. -/
theorem C3_hysteresis_witness :
    (Candidate.mk 2 2 .«end» 5).d ≤ 12 + 6 ∧
    pickBestCandidate 12 6 [⟨0, 0, .«end», 5⟩] (some ⟨2, 2, .«end», 5⟩) =
      some ⟨2, 2, .«end», 5⟩ := by
  refine ⟨by norm_num, C3_hysteresis_keeps_lastSnap 12 6 _ _ (by norm_num) ?_⟩
  intro c hc hcd
  simp only [List.mem_singleton] at hc
  subst hc
  norm_num [scoreOf, kindPriority, priorityBiasPx]

/-- Under pairwise score separation larger than the `0.2` tie window, the
scan loop returns a candidate of minimal score among the within-threshold
candidates (and of score at most the incoming best's score). -/
theorem foldl_scanStep_min (thresholdPx : ℚ) :
    ∀ (l : List Candidate) (st : BestState),
      (∀ b, st.best = some b → scoreOf b = st.bestScore ∧ b.d ≤ thresholdPx) →
      (∀ b, st.best = some b → ∀ c ∈ l, c.d ≤ thresholdPx →
        |scoreOf c - scoreOf b| > 1 / 5) →
      List.Pairwise (fun c c' => c.d ≤ thresholdPx → c'.d ≤ thresholdPx →
        |scoreOf c - scoreOf c'| > 1 / 5) l →
      ∀ b', (l.foldl (scanStep thresholdPx) st).best = some b' →
        (∀ c ∈ l, c.d ≤ thresholdPx → scoreOf b' ≤ scoreOf c) ∧
        (∀ b, st.best = some b → scoreOf b' ≤ scoreOf b) := by
  intro l
  induction l with
  | nil =>
    intro st _ _ _ b' hb'
    simp only [List.foldl_nil] at hb'
    refine ⟨by simp, fun b hb => ?_⟩
    rw [hb] at hb'
    injection hb' with hb'
    rw [hb']
  | cons c rest ih =>
    intro st hsound hsepInit hsepL b' hb'
    simp only [List.foldl_cons] at hb'
    have hpair := List.pairwise_cons.mp hsepL
    by_cases hfar : c.d > thresholdPx
    · rw [scanStep_far st hfar] at hb'
      have hres := ih st hsound
        (fun b hb c' hc' => hsepInit b hb c' (List.mem_cons_of_mem _ hc'))
        hpair.2 b' hb'
      refine ⟨?_, hres.2⟩
      intro c2 hc2 hcd2
      rcases List.mem_cons.mp hc2 with rfl | h2
      · exact absurd hcd2 (not_le.mpr hfar)
      · exact hres.1 c2 h2 hcd2
    · have hcd : c.d ≤ thresholdPx := not_lt.mp hfar
      cases hst : st.best with
      | none =>
        rw [scanStep_take hfar (Or.inl hst)] at hb'
        have hsound' : ∀ b, (BestState.mk (some c) (scoreOf c) c.d).best = some b →
            scoreOf b = (BestState.mk (some c) (scoreOf c) c.d).bestScore ∧
            b.d ≤ thresholdPx := by
          intro b hb
          have h2 : some c = some b := hb
          injection h2 with h2
          subst h2
          exact ⟨rfl, hcd⟩
        have hsep' : ∀ b, (BestState.mk (some c) (scoreOf c) c.d).best = some b →
            ∀ c' ∈ rest, c'.d ≤ thresholdPx → |scoreOf c' - scoreOf b| > 1 / 5 := by
          intro b hb c' hc' hcd'
          have h2 : some c = some b := hb
          injection h2 with h2
          subst h2
          rw [abs_sub_comm]
          exact hpair.1 c' hc' hcd hcd'
        have hres := ih _ hsound' hsep' hpair.2 b' hb'
        refine ⟨?_, fun b hb => ?_⟩
        · intro c2 hc2 hcd2
          rcases List.mem_cons.mp hc2 with rfl | h2
          · exact hres.2 c2 rfl
          · exact hres.1 c2 h2 hcd2
        · exact absurd hb (by simp)
      | some b0 =>
        have hsep0 : |scoreOf c - scoreOf b0| > 1 / 5 :=
          hsepInit b0 hst c (List.mem_cons_self c rest) hcd
        have hb0 := hsound b0 hst
        by_cases hcond : st.best = none ∨ scoreOf c < st.bestScore - 1 / 1000000 ∨
            (|scoreOf c - st.bestScore| ≤ 1 / 5 ∧ c.d < st.bestD - 1 / 1000000)
        · rw [scanStep_take hfar hcond] at hb'
          have hlt : scoreOf c < scoreOf b0 := by
            rcases hcond with h1 | h2 | h3
            · rw [hst] at h1; exact absurd h1 (by simp)
            · rw [← hb0.1] at h2; linarith
            · rw [← hb0.1] at h3; linarith [h3.1, hsep0]
          have hsound' : ∀ b, (BestState.mk (some c) (scoreOf c) c.d).best = some b →
              scoreOf b = (BestState.mk (some c) (scoreOf c) c.d).bestScore ∧
              b.d ≤ thresholdPx := by
            intro b hb
            have h2 : some c = some b := hb
            injection h2 with h2
            subst h2
            exact ⟨rfl, hcd⟩
          have hsep' : ∀ b, (BestState.mk (some c) (scoreOf c) c.d).best = some b →
              ∀ c' ∈ rest, c'.d ≤ thresholdPx → |scoreOf c' - scoreOf b| > 1 / 5 := by
            intro b hb c' hc' hcd'
            have h2 : some c = some b := hb
            injection h2 with h2
            subst h2
            rw [abs_sub_comm]
            exact hpair.1 c' hc' hcd hcd'
          have hres := ih _ hsound' hsep' hpair.2 b' hb'
          refine ⟨?_, fun b hb => ?_⟩
          · intro c2 hc2 hcd2
            rcases List.mem_cons.mp hc2 with rfl | h2
            · exact hres.2 c2 rfl
            · exact hres.1 c2 h2 hcd2
          · injection hb with hb
            subst hb
            exact le_trans (hres.2 c rfl) (le_of_lt hlt)
        · rw [scanStep_keep hfar hcond] at hb'
          have hgt : scoreOf b0 < scoreOf c := by
            have h1 : ¬ scoreOf c < st.bestScore - 1 / 1000000 :=
              fun h => hcond (Or.inr (Or.inl h))
            have habs : |scoreOf c - scoreOf b0| > 1 / 5 := hsep0
            by_cases hlt2 : scoreOf c < scoreOf b0
            · exfalso
              apply h1
              rw [abs_sub_comm, abs_of_pos (by linarith)] at habs
              rw [← hb0.1]
              linarith
            · push_neg at hlt2
              rw [abs_of_nonneg (by linarith)] at habs
              linarith
          have hres := ih st hsound
            (fun b hb c' hc' => hsepInit b hb c' (List.mem_cons_of_mem _ hc'))
            hpair.2 b' hb'
          refine ⟨?_, fun b hb => hres.2 b (hst.trans hb)⟩
          intro c2 hc2 hcd2
          rcases List.mem_cons.mp hc2 with rfl | h2
          · exact le_trans (hres.2 b0 hst) (le_of_lt hgt)
          · exact hres.1 c2 h2 hcd2

/-- Claim C2 counterexample: with threshold 12, scanning a `half` candidate
at screen distance 8.25 (score 10.05) followed by a `centre` candidate at
distance 6.5 (score 10.1), the loop returns the `centre` candidate through
its distance tie-break although the `half` candidate has the strictly
smaller score — so the resolver does not always pick the minimum-score
candidate. -/
theorem C2_not_min_score_cex :
    pickBestCandidate 12 6 [⟨0, 0, .half, 33 / 4⟩, ⟨1, 1, .centre, 13 / 2⟩] none =
      some ⟨1, 1, .centre, 13 / 2⟩ ∧
    (Candidate.mk 0 0 .half (33 / 4)).d ≤ 12 ∧
    scoreOf ⟨0, 0, .half, 33 / 4⟩ < scoreOf ⟨1, 1, .centre, 13 / 2⟩ := by
  refine ⟨?_, by norm_num, ?_⟩
  · norm_num [pickBestCandidate, scanStep, scoreOf, kindPriority, priorityBiasPx,
      abs_le]
  · norm_num [scoreOf, kindPriority, priorityBiasPx]

/-- Claim C2 amended: the resolver scores every within-threshold candidate
as `d + kindPriority(kind) * 0.9` with the priority table as listed; it
picks the minimum-score candidate except that a candidate whose score ties
the current best within `0.2 px` and whose raw distance is smaller is
preferred; in particular an `end` and a `half` candidate equally close and
within threshold always resolve to the endpoint, and whenever all
within-threshold scores are pairwise separated by more than `0.2 px` the
returned candidate has the minimum score. -/
theorem C2_kind_priority_selection :
    (kindPriority .«end» = 0 ∧ kindPriority .vertex = 0 ∧
     kindPriority .intersection = 1 ∧ kindPriority .half = 2 ∧
     kindPriority .quadrant = 3 ∧ kindPriority .centre = 4 ∧
     kindPriority .perpendicular = 5 ∧ kindPriority .parallel = 6 ∧
     kindPriority .tangent = 7 ∧ kindPriority .extension = 8 ∧
     kindPriority .grid = 9) ∧
    (∀ thresholdPx holdPx d xe ye xh yh : ℚ, d ≤ thresholdPx →
      pickBestCandidate thresholdPx holdPx
        [⟨xe, ye, .«end», d⟩, ⟨xh, yh, .half, d⟩] none =
        some ⟨xe, ye, .«end», d⟩ ∧
      pickBestCandidate thresholdPx holdPx
        [⟨xh, yh, .half, d⟩, ⟨xe, ye, .«end», d⟩] none =
        some ⟨xe, ye, .«end», d⟩) ∧
    (∀ (thresholdPx holdPx : ℚ) (cands : List Candidate),
      List.Pairwise (fun c c' => c.d ≤ thresholdPx → c'.d ≤ thresholdPx →
        |scoreOf c - scoreOf c'| > 1 / 5) cands →
      ∀ b, pickBestCandidate thresholdPx holdPx cands none = some b →
        b.d ≤ thresholdPx ∧ ∀ c ∈ cands, c.d ≤ thresholdPx → scoreOf b ≤ scoreOf c) := by
  refine ⟨⟨rfl, rfl, rfl, rfl, rfl, rfl, rfl, rfl, rfl, rfl, rfl⟩, ?_, ?_⟩
  · intro thresholdPx holdPx d xe ye xh yh hd
    have hE : scoreOf ⟨xe, ye, .«end», d⟩ = d := by
      simp [scoreOf, kindPriority]
    have hH : scoreOf ⟨xh, yh, .half, d⟩ = d + 9 / 5 := by
      simp only [scoreOf, kindPriority, priorityBiasPx]
      ring
    have hfarE : ¬ (Candidate.mk xe ye .«end» d).d > thresholdPx := not_lt.mpr hd
    have hfarH : ¬ (Candidate.mk xh yh .half d).d > thresholdPx := not_lt.mpr hd
    constructor
    · have hkeep : ¬ ((some (⟨xe, ye, .«end», d⟩ : Candidate) = none) ∨
          scoreOf ⟨xh, yh, .half, d⟩ < scoreOf ⟨xe, ye, .«end», d⟩ - 1 / 1000000 ∨
          (|scoreOf ⟨xh, yh, .half, d⟩ - scoreOf ⟨xe, ye, .«end», d⟩| ≤ 1 / 5 ∧
            (Candidate.mk xh yh .half d).d <
              (Candidate.mk xe ye .«end» d).d - 1 / 1000000)) := by
        rw [hE, hH]
        rintro (h | h | ⟨h, h2⟩)
        · exact Option.noConfusion h
        · linarith
        · rw [show d + 9 / 5 - d = 9 / 5 by ring,
            abs_of_nonneg (by norm_num : (0 : ℚ) ≤ 9 / 5)] at h
          norm_num at h
      simp only [pickBestCandidate, List.foldl_cons, List.foldl_nil]
      rw [scanStep_take hfarE (Or.inl rfl), scanStep_keep hfarH hkeep]
    · have htake : scoreOf ⟨xe, ye, .«end», d⟩ <
          scoreOf ⟨xh, yh, .half, d⟩ - 1 / 1000000 := by
        rw [hE, hH]
        linarith
      simp only [pickBestCandidate, List.foldl_cons, List.foldl_nil]
      rw [scanStep_take hfarH (Or.inl rfl), scanStep_take hfarE (Or.inr (Or.inl htake))]
  · intro thresholdPx holdPx cands hsep b hb
    simp only [pickBestCandidate] at hb
    have hsound := foldl_scanStep_sound thresholdPx (fun _ => True) cands
      ⟨none, 0, 0⟩ (fun _ _ => trivial)
      (by intro b0 hb0; exact absurd hb0 (by simp)) b hb
    have hmin := foldl_scanStep_min thresholdPx cands ⟨none, 0, 0⟩
      (by intro b0 hb0; exact absurd hb0 (by simp))
      (by intro b0 hb0; exact absurd hb0 (by simp)) hsep b hb
    exact ⟨hsound.2.1, hmin.1⟩

/-- Witness for the amended C2 at threshold 12 and distance 3: an `end` and
a `half` candidate equally close resolve to the endpoint in either scan
order. -/
theorem C2_kind_priority_selection_witness :
    (3 : ℚ) ≤ 12 ∧
    pickBestCandidate 12 6 [⟨0, 0, .«end», 3⟩, ⟨5, 5, .half, 3⟩] none =
      some ⟨0, 0, .«end», 3⟩ ∧
    pickBestCandidate 12 6 [⟨5, 5, .half, 3⟩, ⟨0, 0, .«end», 3⟩] none =
      some ⟨0, 0, .«end», 3⟩ :=
  ⟨by norm_num,
   (C2_kind_priority_selection.2.1 12 6 3 0 0 5 5 (by norm_num)).1,
   (C2_kind_priority_selection.2.1 12 6 3 0 0 5 5 (by norm_num)).2⟩

/-- Claim C10: for every configured `SNAP_THRESHOLD` the effective
screen-space snap threshold lies in `[6, 22]`; a missing or non-finite
configuration falls back to `12`, an in-range value passes through, and an
out-of-range value is clamped to the nearer bound. -/
theorem C10_snap_threshold_clamped :
    (∀ cfg : Option ℚ, 6 ≤ getSnapThresholdScreenPx cfg ∧
      getSnapThresholdScreenPx cfg ≤ 22) ∧
    getSnapThresholdScreenPx none = 12 ∧
    (∀ q : ℚ, 6 ≤ q → q ≤ 22 → getSnapThresholdScreenPx (some q) = q) ∧
    (∀ q : ℚ, q < 6 → getSnapThresholdScreenPx (some q) = 6) ∧
    (∀ q : ℚ, 22 < q → getSnapThresholdScreenPx (some q) = 22) := by
  refine ⟨fun cfg => ⟨?_, ?_⟩, ?_, fun q h1 h2 => ?_, fun q h => ?_, fun q h => ?_⟩
  · exact le_min (by norm_num) (le_max_left _ _)
  · exact min_le_left _ _
  · show min 22 (max 6 ((12 : ℚ))) = 12
    rw [max_eq_right (by norm_num : (6 : ℚ) ≤ 12),
      min_eq_right (by norm_num : (12 : ℚ) ≤ 22)]
  · show min 22 (max 6 q) = q
    rw [max_eq_right h1, min_eq_right h2]
  · show min 22 (max 6 q) = 6
    rw [max_eq_left (le_of_lt h), min_eq_right (by norm_num : (6 : ℚ) ≤ 22)]
  · show min 22 (max 6 q) = 22
    rw [max_eq_right (by linarith), min_eq_left (le_of_lt h)]

/-- Witness for C10 at the repository's configured `SNAP_THRESHOLD = 15`
(src/config.js): in range, so it passes through unchanged. -/
theorem C10_snap_threshold_witness :
    (6 : ℚ) ≤ 15 ∧ (15 : ℚ) ≤ 22 ∧ getSnapThresholdScreenPx (some 15) = 15 :=
  ⟨by norm_num, by norm_num,
   C10_snap_threshold_clamped.2.2.1 15 (by norm_num) (by norm_num)⟩

/-- Claim C5 (code bug): on the segment (16,5)–(6,15) and the box
0..10 × 0..10, `segmentIntersectsBox` returns `true`, yet no point of the
segment lies in the box.  The `t1` exit clips of the source's clipping
blocks test the wrong endpoint (after the quick-reject they are
unreachable), so the exit boundary never clips and the function reports a
false positive. -/
theorem C5_segmentIntersectsBox_false_positive :
    segmentIntersectsBox ⟨16, 5⟩ ⟨6, 15⟩ ⟨0, 0, 10, 10⟩ = true ∧
    ¬ ∃ t : ℚ, 0 ≤ t ∧ t ≤ 1 ∧
      pointInBox (segPoint ⟨16, 5⟩ ⟨6, 15⟩ t) ⟨0, 0, 10, 10⟩ := by
  constructor
  · norm_num [segmentIntersectsBox, clipX, clipY]
  · rintro ⟨t, h0, h1, h⟩
    simp only [pointInBox, segPoint] at h
    rw [min_eq_left (by norm_num : (0 : ℚ) ≤ 10),
      max_eq_right (by norm_num : (0 : ℚ) ≤ 10)] at h
    obtain ⟨hx1, hx2, hy1, hy2⟩ := h
    norm_num at hx2 hy2
    linarith

/-- Witness instantiating the no-overlap half of C5 at `t = 1/2`. -/
theorem C5_segmentIntersectsBox_witness :
    ¬ (0 ≤ (1 / 2 : ℚ) ∧ (1 / 2 : ℚ) ≤ 1 ∧
      pointInBox (segPoint ⟨16, 5⟩ ⟨6, 15⟩ (1 / 2)) ⟨0, 0, 10, 10⟩) :=
  fun hc => C5_segmentIntersectsBox_false_positive.2 ⟨1 / 2, hc.1, hc.2.1, hc.2.2⟩

/-- A zero-length first segment yields no segment intersection. -/
theorem lineIntersection_degenerate_left (a c d : PointQ) :
    lineIntersection a a c d = none := by
  dsimp only [lineIntersection]
  rw [if_pos]
  rw [show (a.x - a.x) * (d.y - c.y) - (a.y - a.y) * (d.x - c.x) = 0 by ring]
  norm_num

/-- A zero-length second segment yields no segment intersection. -/
theorem lineIntersection_degenerate_right (a b c : PointQ) :
    lineIntersection a b c c = none := by
  dsimp only [lineIntersection]
  rw [if_pos]
  rw [show (b.x - a.x) * (c.y - c.y) - (b.y - a.y) * (c.x - c.x) = 0 by ring]
  norm_num

/-- A second segment parallel to the first (its direction a scalar multiple
of the first's) yields no segment intersection. -/
theorem lineIntersection_parallel (a b c : PointQ) (k : ℚ) :
    lineIntersection a b c
      ⟨c.x + k * (b.x - a.x), c.y + k * (b.y - a.y)⟩ = none := by
  dsimp only [lineIntersection]
  rw [if_pos]
  rw [show (b.x - a.x) * (c.y + k * (b.y - a.y) - c.y) -
      (b.y - a.y) * (c.x + k * (b.x - a.x) - c.x) = 0 by ring]
  norm_num

/-- When the cross product clears the epsilon but a parameter leaves
`[0, 1]`, `lineIntersection` returns `none`. -/
theorem lineIntersection_param_out_of_range (a b c d : PointQ)
    (hcross : ¬ |crossRS a b c d| < 1 / 10000000000)
    (hout : tParam a b c d < 0 ∨ tParam a b c d > 1 ∨
      uParam a b c d < 0 ∨ uParam a b c d > 1) :
    lineIntersection a b c d = none := by
  simp only [crossRS] at hcross
  simp only [tParam, uParam, crossRS] at hout
  dsimp only [lineIntersection]
  rw [if_neg hcross, if_pos hout]

/-- A zero-length segment yields no line-circle intersections. -/
theorem lineCircleIntersections_degenerate (a c : PointR) (r : ℝ) :
    lineCircleIntersections a a c r = [] := by
  dsimp only [lineCircleIntersections]
  rw [if_pos]
  right
  rw [show (a.x - a.x) * (a.x - a.x) + (a.y - a.y) * (a.y - a.y) = 0 by ring]
  norm_num

/-- A negative discriminant yields no line-circle intersections. -/
theorem lineCircleIntersections_neg_disc (a b c : PointR) (r : ℝ)
    (h : lcDisc a b c r < 0) :
    lineCircleIntersections a b c r = [] := by
  dsimp only [lcDisc] at h
  dsimp only [lineCircleIntersections]
  rw [if_pos (Or.inl h)]

/-- Coincident centres yield no circle-circle intersections. -/
theorem circleCircleIntersections_coincident (c0 : PointR) (r0 r1 : ℝ) :
    circleCircleIntersections c0 r0 c0 r1 = [] := by
  dsimp only [circleCircleIntersections]
  rw [if_pos]
  rw [show (c0.x - c0.x) ^ 2 + (c0.y - c0.y) ^ 2 = 0 by ring, Real.sqrt_zero]
  norm_num

/-- Disjoint circles yield no circle-circle intersections. -/
theorem circleCircleIntersections_disjoint (c0 c1 : PointR) (r0 r1 : ℝ)
    (h : ccDist c0 c1 > r0 + r1) :
    circleCircleIntersections c0 r0 c1 r1 = [] := by
  dsimp only [ccDist] at h
  dsimp only [circleCircleIntersections]
  by_cases h1 : Real.sqrt ((c1.x - c0.x) ^ 2 + (c1.y - c0.y) ^ 2) < 1 / 10000000000
  · rw [if_pos h1]
  · rw [if_neg h1, if_pos h]

/-- One circle strictly inside the other yields no circle-circle
intersections. -/
theorem circleCircleIntersections_inside (c0 c1 : PointR) (r0 r1 : ℝ)
    (h : ccDist c0 c1 < |r0 - r1|) :
    circleCircleIntersections c0 r0 c1 r1 = [] := by
  dsimp only [ccDist] at h
  dsimp only [circleCircleIntersections]
  by_cases h1 : Real.sqrt ((c1.x - c0.x) ^ 2 + (c1.y - c0.y) ^ 2) < 1 / 10000000000
  · rw [if_pos h1]
  · rw [if_neg h1]
    by_cases h2 : Real.sqrt ((c1.x - c0.x) ^ 2 + (c1.y - c0.y) ^ 2) > r0 + r1
    · rw [if_pos h2]
    · rw [if_neg h2, if_pos h]

/-- Common computation for tangency: when the half-chord square
`r0^2 - a^2` vanishes, `circleCircleIntersections` collapses its two
intersection points into one. -/
theorem circleCircle_tangent_aux (c0 c1 : PointR) (r0 r1 dd : ℝ)
    (hd : Real.sqrt ((c1.x - c0.x) ^ 2 + (c1.y - c0.y) ^ 2) = dd)
    (hdmin : dd ≥ 1 / 10000000000)
    (hnd : ¬ dd > r0 + r1) (hni : ¬ dd < |r0 - r1|)
    (ha : r0 * r0 - (r0 * r0 - r1 * r1 + dd * dd) / (2 * dd) *
      ((r0 * r0 - r1 * r1 + dd * dd) / (2 * dd)) = 0) :
    ∃ p, circleCircleIntersections c0 r0 c1 r1 = [p] := by
  dsimp only [circleCircleIntersections]
  rw [hd, if_neg (not_lt.mpr hdmin), if_neg hnd, if_neg hni, ha,
    if_neg (lt_irrefl (0 : ℝ)), Real.sqrt_zero]
  simp only [mul_zero, zero_div, add_zero, sub_zero, sub_self]
  rw [if_pos]
  · exact ⟨_, rfl⟩
  · rw [show ((0 : ℝ)) ^ 2 + (0 : ℝ) ^ 2 = 0 by norm_num, Real.sqrt_zero]
    norm_num

/-- Externally or internally tangent circles (nonnegative radii, centre
distance at least `1e-10`) yield exactly one intersection point. -/
theorem circleCircleIntersections_tangent (c0 c1 : PointR) (r0 r1 : ℝ)
    (hr0 : 0 ≤ r0) (hr1 : 0 ≤ r1)
    (htan : ccDist c0 c1 = r0 + r1 ∨ ccDist c0 c1 = |r0 - r1|)
    (hdmin : ccDist c0 c1 ≥ 1 / 10000000000) :
    ∃ p, circleCircleIntersections c0 r0 c1 r1 = [p] := by
  have habs : |r0 - r1| ≤ r0 + r1 := abs_le.mpr ⟨by linarith, by linarith⟩
  rcases htan with h | h
  · rw [h] at hdmin
    have hdd : (0 : ℝ) < r0 + r1 :=
      lt_of_lt_of_le (by norm_num) hdmin
    refine circleCircle_tangent_aux c0 c1 r0 r1 (r0 + r1) ?_ hdmin
      (lt_irrefl _) (not_lt.mpr habs) ?_
    · simp only [ccDist] at h
      exact h
    · field_simp
      ring
  · rw [h] at hdmin
    have hdd : (0 : ℝ) < |r0 - r1| :=
      lt_of_lt_of_le (by norm_num) hdmin
    have hsub : r0 - r1 ≠ 0 := by
      intro h0
      rw [h0, abs_zero] at hdd
      exact lt_irrefl 0 hdd
    refine circleCircle_tangent_aux c0 c1 r0 r1 |r0 - r1| ?_ hdmin
      (not_lt.mpr habs) (lt_irrefl _) ?_
    · simp only [ccDist] at h
      exact h
    · rcases le_total r1 r0 with hle | hle
      · rw [abs_of_nonneg (by linarith)]
        field_simp
        ring
      · rw [abs_of_nonpos (by linarith)]
        have hne : (2 : ℝ) * -(r0 - r1) ≠ 0 :=
          mul_ne_zero two_ne_zero (neg_ne_zero.mpr hsub)
        rw [div_mul_div_comm, sub_eq_zero, eq_div_iff (mul_ne_zero hne hne)]
        ring

/-- Claim C7 counterexample: a zero radius is not rejected by
`lineCircleIntersections` — on the segment (-1,0)–(1,0) through the centre
(0,0) with `r = 0` the discriminant is zero and the function returns the
centre point instead of the empty array. -/
theorem C7_lineCircle_zero_radius_cex :
    lineCircleIntersections ⟨-1, 0⟩ ⟨1, 0⟩ ⟨0, 0⟩ 0 = [⟨0, 0⟩] ∧
    lineCircleIntersections ⟨-1, 0⟩ ⟨1, 0⟩ ⟨0, 0⟩ 0 ≠ [] := by
  have h : lineCircleIntersections ⟨-1, 0⟩ ⟨1, 0⟩ ⟨0, 0⟩ 0 = [⟨0, 0⟩] := by
    norm_num [lineCircleIntersections, Real.sqrt_zero]
  exact ⟨h, by rw [h]; simp⟩

/-- Claim C7 amended: `lineIntersection` returns `null` for a zero-length
segment (either side), for parallel segments, and for parameters outside
`[0, 1]`; `lineCircleIntersections` returns `[]` for a zero-length segment
and for a negative discriminant (a zero or negative radius is *not*
rejected — the radius enters only squared); `circleCircleIntersections`
returns `[]` for coincident centres, disjoint circles, or one circle inside
the other, and exactly one point for externally or internally tangent
circles whose centre distance clears the `1e-10` guard. -/
theorem C7_degenerate_geometry :
    (∀ a c d : PointQ, lineIntersection a a c d = none) ∧
    (∀ a b c : PointQ, lineIntersection a b c c = none) ∧
    (∀ (a b c : PointQ) (k : ℚ), lineIntersection a b c
      ⟨c.x + k * (b.x - a.x), c.y + k * (b.y - a.y)⟩ = none) ∧
    (∀ a b c d : PointQ, ¬ |crossRS a b c d| < 1 / 10000000000 →
      (tParam a b c d < 0 ∨ tParam a b c d > 1 ∨
       uParam a b c d < 0 ∨ uParam a b c d > 1) →
      lineIntersection a b c d = none) ∧
    (∀ (a c : PointR) (r : ℝ), lineCircleIntersections a a c r = []) ∧
    (∀ (a b c : PointR) (r : ℝ), lcDisc a b c r < 0 →
      lineCircleIntersections a b c r = []) ∧
    (∀ (c0 : PointR) (r0 r1 : ℝ), circleCircleIntersections c0 r0 c0 r1 = []) ∧
    (∀ (c0 c1 : PointR) (r0 r1 : ℝ), ccDist c0 c1 > r0 + r1 →
      circleCircleIntersections c0 r0 c1 r1 = []) ∧
    (∀ (c0 c1 : PointR) (r0 r1 : ℝ), ccDist c0 c1 < |r0 - r1| →
      circleCircleIntersections c0 r0 c1 r1 = []) ∧
    (∀ (c0 c1 : PointR) (r0 r1 : ℝ), 0 ≤ r0 → 0 ≤ r1 →
      (ccDist c0 c1 = r0 + r1 ∨ ccDist c0 c1 = |r0 - r1|) →
      ccDist c0 c1 ≥ 1 / 10000000000 →
      ∃ p, circleCircleIntersections c0 r0 c1 r1 = [p]) :=
  ⟨lineIntersection_degenerate_left, lineIntersection_degenerate_right,
   lineIntersection_parallel, lineIntersection_param_out_of_range,
   lineCircleIntersections_degenerate, lineCircleIntersections_neg_disc,
   circleCircleIntersections_coincident, circleCircleIntersections_disjoint,
   circleCircleIntersections_inside, circleCircleIntersections_tangent⟩

/-- Witness for the amended C7: the circles centred at (0,0) and (5,0) with
radii 2 and 3 are externally tangent and yield exactly one point. -/
theorem C7_degenerate_geometry_witness :
    ((0 : ℝ) ≤ 2 ∧ (0 : ℝ) ≤ 3 ∧
     ccDist ⟨0, 0⟩ ⟨5, 0⟩ = 2 + 3 ∧
     ccDist ⟨0, 0⟩ ⟨5, 0⟩ ≥ 1 / 10000000000) ∧
    ∃ p, circleCircleIntersections ⟨0, 0⟩ 2 ⟨5, 0⟩ 3 = [p] := by
  have h5 : ccDist ⟨0, 0⟩ ⟨5, 0⟩ = 5 := by
    simp only [ccDist]
    rw [show ((PointR.mk 5 0).x - (PointR.mk 0 0).x) ^ 2 +
      ((PointR.mk 5 0).y - (PointR.mk 0 0).y) ^ 2 = 5 ^ 2 by norm_num]
    exact Real.sqrt_sq (by norm_num)
  refine ⟨⟨by norm_num, by norm_num, by rw [h5]; norm_num, by rw [h5]; norm_num⟩,
    C7_degenerate_geometry.2.2.2.2.2.2.2.2.2 ⟨0, 0⟩ ⟨5, 0⟩ 2 3
      (by norm_num) (by norm_num)
      (Or.inl (by rw [h5]; norm_num)) (by rw [h5]; norm_num)⟩

/-- `normaliseAngleRad` is the identity on its target interval `(-π, π]`;
in particular it leaves `Math.atan2` outputs unchanged. -/
theorem normaliseAngleRad_eq_self {a : ℝ} (h1 : -Real.pi < a) (h2 : a ≤ Real.pi) :
    normaliseAngleRad a = a := by
  have hpi : (0 : ℝ) < 2 * Real.pi := by positivity
  have hz : ⌈a / (2 * Real.pi) - 1 / 2⌉ = 0 := by
    rw [Int.ceil_eq_zero_iff, Set.mem_Ioc]
    constructor
    · have h3 : -(1 / 2 : ℝ) < a / (2 * Real.pi) := by
        rw [lt_div_iff₀ hpi]
        nlinarith [Real.pi_pos]
      linarith
    · have h4 : a / (2 * Real.pi) ≤ 1 / 2 := by
        rw [div_le_iff₀ hpi]
        nlinarith [Real.pi_pos]
      linarith
  unfold normaliseAngleRad
  rw [hz, Int.cast_zero, mul_zero, sub_zero]

/-- `Math.round` lands within half a unit of its argument. -/
theorem jsRound_near (x : ℝ) : |(jsRound x : ℝ) - x| ≤ 1 / 2 := by
  have h1 : (jsRound x : ℝ) ≤ x + 1 / 2 := Int.floor_le (x + 1 / 2)
  have h2 : x + 1 / 2 < jsRound x + 1 := Int.lt_floor_add_one (x + 1 / 2)
  exact abs_le.mpr ⟨by linarith, by linarith⟩

/-- Claim C6: with snapping disabled `applyAngleSnap` returns the pointer
unchanged; with snapping enabled and a positive step it returns the point
at exactly the original distance from the origin lying on the ray whose
angle is a multiple of `stepRad = stepDeg * π / 180` within half a step of
the raw origin-to-pointer angle (the nearest multiple). -/
theorem C6_applyAngleSnap_length_preserving (origin pointer : PointR)
    (stepDeg : ℝ) (hstep : 0 < stepDeg) :
    applyAngleSnap origin pointer stepDeg false = pointer ∧
    distR origin (applyAngleSnap origin pointer stepDeg true) =
      distR origin pointer ∧
    ∃ m : ℤ,
      applyAngleSnap origin pointer stepDeg true =
        ⟨origin.x + Real.cos (m * (stepDeg * Real.pi / 180)) *
          distR origin pointer,
         origin.y + Real.sin (m * (stepDeg * Real.pi / 180)) *
          distR origin pointer⟩ ∧
      |m * (stepDeg * Real.pi / 180) - angleRadBetween origin pointer| ≤
        stepDeg * Real.pi / 180 / 2 := by
  have hsr : (0 : ℝ) < stepDeg * Real.pi / 180 := by positivity
  have hkey : ∀ (θ len : ℝ), 0 ≤ len →
      distR origin ⟨origin.x + Real.cos θ * len, origin.y + Real.sin θ * len⟩ = len := by
    intro θ len h
    simp only [distR]
    rw [show (origin.x + Real.cos θ * len - origin.x) ^ 2 +
        (origin.y + Real.sin θ * len - origin.y) ^ 2 = len ^ 2 by
      linear_combination (len ^ 2) * Real.sin_sq_add_cos_sq θ]
    exact Real.sqrt_sq h
  have hlen : Real.sqrt ((pointer.x - origin.x) ^ 2 + (pointer.y - origin.y) ^ 2) =
      distR origin pointer := rfl
  have hang : normaliseAngleRad (angleRadBetween origin pointer) =
      angleRadBetween origin pointer :=
    normaliseAngleRad_eq_self (Complex.neg_pi_lt_arg _) (Complex.arg_le_pi _)
  have happ : applyAngleSnap origin pointer stepDeg true =
      ⟨origin.x + Real.cos (snapAngleRadians
          (normaliseAngleRad (angleRadBetween origin pointer))
          (stepDeg * Real.pi / 180)) * distR origin pointer,
       origin.y + Real.sin (snapAngleRadians
          (normaliseAngleRad (angleRadBetween origin pointer))
          (stepDeg * Real.pi / 180)) * distR origin pointer⟩ := rfl
  refine ⟨rfl, ?_, ?_⟩
  · rw [happ]
    exact hkey _ _ (Real.sqrt_nonneg _)
  · refine ⟨jsRound (angleRadBetween origin pointer / (stepDeg * Real.pi / 180)),
      ?_, ?_⟩
    · rw [happ, snapAngleRadians, hang]
    · rw [hang] at *
      set ang := angleRadBetween origin pointer
      set sr := stepDeg * Real.pi / 180
      have hmul : (jsRound (ang / sr) : ℝ) * sr - ang =
          ((jsRound (ang / sr) : ℝ) - ang / sr) * sr := by
        field_simp
      rw [hmul, abs_mul, abs_of_pos hsr]
      calc |(jsRound (ang / sr) : ℝ) - ang / sr| * sr ≤ (1 / 2) * sr :=
            mul_le_mul_of_nonneg_right (jsRound_near _) (le_of_lt hsr)
        _ = sr / 2 := by ring

/-- Witness for C6 at origin (0,0), pointer (10,4) and the default 45° step. -/
theorem C6_applyAngleSnap_witness :
    (0 : ℝ) < 45 ∧
    (applyAngleSnap ⟨0, 0⟩ ⟨10, 4⟩ 45 false = ⟨10, 4⟩ ∧
     distR ⟨0, 0⟩ (applyAngleSnap ⟨0, 0⟩ ⟨10, 4⟩ 45 true) =
       distR ⟨0, 0⟩ ⟨10, 4⟩ ∧
     ∃ m : ℤ,
       applyAngleSnap ⟨0, 0⟩ ⟨10, 4⟩ 45 true =
         ⟨(PointR.mk 0 0).x + Real.cos (m * (45 * Real.pi / 180)) *
           distR ⟨0, 0⟩ ⟨10, 4⟩,
          (PointR.mk 0 0).y + Real.sin (m * (45 * Real.pi / 180)) *
           distR ⟨0, 0⟩ ⟨10, 4⟩⟩ ∧
       |m * (45 * Real.pi / 180) - angleRadBetween ⟨0, 0⟩ ⟨10, 4⟩| ≤
         45 * Real.pi / 180 / 2) :=
  ⟨by norm_num,
   C6_applyAngleSnap_length_preserving ⟨0, 0⟩ ⟨10, 4⟩ 45 (by norm_num)⟩

/-- Claim C8 counterexample: `addLineCandidates` assigns a fresh `__uid` to
a drawable line that has none — the extraction mutates a field of the
drawable object it reads. -/
theorem C8_addLineCandidates_assigns_uid_cex :
    ((addLineCandidates 7 idAffine ⟨0, 0, 1, 1, none⟩ [] []).1).uid = some 7 ∧
    (LineObj.mk 0 0 1 1 none).uid = none :=
  ⟨rfl, rfl⟩

/-- Claim C8 amended: candidate extraction never mutates the geometric
fields of the drawables it reads; its only write to a drawable is the lazy
`__uid` assignment — an existing uid is kept, a missing one is set to the
freshly generated id. -/
theorem C8_extraction_preserves_geometry :
    (∀ (fresh : ℕ) (m : Affine) (l : LineObj) (pts : List SnapPt)
        (segs : List SegR),
      ((addLineCandidates fresh m l pts segs).1).x1 = l.x1 ∧
      ((addLineCandidates fresh m l pts segs).1).y1 = l.y1 ∧
      ((addLineCandidates fresh m l pts segs).1).x2 = l.x2 ∧
      ((addLineCandidates fresh m l pts segs).1).y2 = l.y2 ∧
      ((addLineCandidates fresh m l pts segs).1).uid = some (l.uid.getD fresh)) ∧
    (∀ (fresh : ℕ) (q : Bool) (c : CircleObj) (cs : List CircleDesc)
        (pts : List SnapPt),
      ((addCircleCandidates fresh q c cs pts).1).cx = c.cx ∧
      ((addCircleCandidates fresh q c cs pts).1).cy = c.cy ∧
      ((addCircleCandidates fresh q c cs pts).1).radius = c.radius ∧
      ((addCircleCandidates fresh q c cs pts).1).scaleX = c.scaleX ∧
      ((addCircleCandidates fresh q c cs pts).1).scaleY = c.scaleY ∧
      ((addCircleCandidates fresh q c cs pts).1).uid = some (c.uid.getD fresh)) := by
  constructor
  · intro fresh m l pts segs
    obtain ⟨x1, y1, x2, y2, uid⟩ := l
    cases uid <;> simp [addLineCandidates, Option.getD]
  · intro fresh q c cs pts
    obtain ⟨cx, cy, radius, scaleX, scaleY, uid⟩ := c
    cases uid <;> simp [addCircleCandidates, Option.getD]
